import Mathlib

/-!
Verification of the personal-website repository (blog with a view counter,
content lister, post page, and sitemap).

The file embeds, in Lean:
* the View Counter's `increment`/`read` contract (the backing-store code is
  not part of the repository checkout, so it is modelled from the spec);
* the Content Lister contract (also modelled from the spec);
* `formatDate`, the `Blog` post-page component and `sitemap`, translated
  from the TypeScript sources.
-/

/-! ## View Counter -/

/-- Modelled from the spec: the backing store of the View Counter (a single
table/collection keyed by slug with an integer count column) is not among the
repository's source files; it is modelled as an association list from slug to
count, one row per slug. -/
def Store : Type := List (String × Nat)

/-- The empty backing store (no rows). -/
def Store.empty : Store := []

/-- Modelled from the spec: whether a row exists for `slug`. -/
def hasRow : Store → String → Bool
  | [], _ => false
  | (k, _) :: rest, slug => if k = slug then true else hasRow rest slug

/-- Modelled from the spec: `read(slug)` "returns the current count, or 0 if
no row exists (absence is not an error). Read-only, no side effect."  The
repository's store-access code is not in the checkout, so the operation is
modelled from these words as a pure total function. -/
def readCount : Store → String → Nat
  | [], _ => 0
  | (k, v) :: rest, slug => if k = slug then v else readCount rest slug

/-- Modelled from the spec: `increment(slug)` "ensures a row exists for that
slug with count initialized to 0 if absent, then atomically increases count
by 1", as "a single atomic upsert against the backing store".  The whole
upsert is one state transition of the store. -/
def increment : Store → String → Store
  | [], slug => [(slug, 1)]
  | (k, v) :: rest, slug =>
      if k = slug then (k, v + 1) :: rest else (k, v) :: increment rest slug

/-- Modelled from the spec: the operations the application ever performs on
the backing store are the View Counter's upsert-increment and point-read;
each is a single atomic step. -/
inductive CounterOp : Type where
  | inc (slug : String)
  | rd (slug : String)
deriving DecidableEq

/-- The store transition of one atomic operation (a point-read does not
change the store). -/
def applyOp (s : Store) : CounterOp → Store
  | .inc slug => increment s slug
  | .rd _ => s

/-- A schedule of atomic operations, applied in order.  Concurrent execution
by independent callers is modelled by quantifying over all interleavings:
since each operation is a single atomic step, any interleaving is such a
list. -/
def run (s : Store) (ops : List CounterOp) : Store :=
  ops.foldl applyOp s

/-- `increment` on one slug adds exactly one to that slug's count and leaves
every other count unchanged. -/
theorem readCount_increment (s : Store) (x slug : String) :
    readCount (increment s x) slug =
      readCount s slug + (if x = slug then 1 else 0) := by
  induction s with
  | nil =>
      by_cases h : x = slug <;> simp [increment, readCount, h]
  | cons p rest ih =>
      obtain ⟨k, v⟩ := p
      by_cases hk : k = x
      · subst hk
        by_cases h : k = slug <;> simp [increment, readCount, h]
      · by_cases h : k = slug
        · subst h
          simp [increment, readCount, hk, Ne.symm hk]
        · simp [increment, readCount, hk, h, ih]

/-- `increment` never removes a row. -/
theorem hasRow_increment (s : Store) (x slug : String) :
    hasRow s slug = true → hasRow (increment s x) slug = true := by
  induction s with
  | nil => simp [hasRow]
  | cons p rest ih =>
      obtain ⟨k, v⟩ := p
      intro hs
      by_cases hk : k = x
      · subst hk
        by_cases h : k = slug
        · simp [increment, hasRow, h]
        · simp [hasRow, h] at hs
          simp [increment, hasRow, h, hs]
      · by_cases h : k = slug
        · subst h
          simp [increment, hk, hasRow]
        · simp [hasRow, h] at hs
          simp [increment, hk, hasRow, h, ih hs]

/-- A slug with no row reads as zero. -/
theorem readCount_of_not_hasRow (s : Store) (slug : String)
    (h : hasRow s slug = false) : readCount s slug = 0 := by
  induction s with
  | nil => simp [readCount]
  | cons p rest ih =>
      obtain ⟨k, v⟩ := p
      by_cases hk : k = slug
      · simp [hasRow, hk] at h
      · simp [hasRow, hk] at h
        simp [readCount, hk, ih h]

/-- Running a schedule changes a slug's count by exactly the number of
increments of that slug in the schedule. -/
theorem readCount_run (ops : List CounterOp) (s : Store) (slug : String) :
    readCount (run s ops) slug =
      readCount s slug + ops.count (.inc slug) := by
  induction ops generalizing s with
  | nil => simp [run]
  | cons op rest ih =>
      have hrun : run s (op :: rest) = run (applyOp s op) rest := rfl
      rw [hrun, ih]
      cases op with
      | inc x =>
          rw [List.count_cons]
          by_cases h : x = slug
          · subst h
            simp [applyOp, readCount_increment]
            omega
          · have : (CounterOp.inc x == CounterOp.inc slug) = false := by
              simp [h]
            simp [applyOp, readCount_increment, h, this]
      | rd x =>
          have : (CounterOp.rd x == CounterOp.inc slug) = false := by
            simp
          simp [applyOp, this]

/-! ## Content Lister -/

/-- A post's front-matter metadata, as the post page consumes it
(`post.metadata.title`, `post.metadata.publishedAt`, `post.metadata.summary`,
optional `post.metadata.image`). -/
structure Metadata : Type where
  title : String
  publishedAt : String
  summary : String
  image : Option String
deriving DecidableEq

/-- A post record: slug (derived from the filename), parsed front matter,
and the raw body text. -/
structure Post : Type where
  slug : String
  metadata : Metadata
  content : String
deriving DecidableEq

/-- A content document as found in the content directory: slug from the
filename, YAML-like front matter as key/value pairs, and the body. -/
structure ContentDoc : Type where
  slug : String
  frontMatter : List (String × String)
  content : String
deriving DecidableEq

/-- Modelled from the spec: front-matter parsing.  A document lacking any of
the required fields `title`, `publishedAt`, `summary` has no Post record
(the `MalformedMetadata` condition, handled by the uniform exclusion
policy); otherwise all declared attributes are populated. -/
def parseDoc (d : ContentDoc) : Option Post :=
  match d.frontMatter.lookup "title", d.frontMatter.lookup "publishedAt",
      d.frontMatter.lookup "summary" with
  | some t, some p, some s =>
      some { slug := d.slug
             metadata := { title := t, publishedAt := p, summary := s,
                           image := d.frontMatter.lookup "image" }
             content := d.content }
  | _, _, _ => none

/-- The listing order: descending by publication date (ISO date strings
compare lexicographically), ties broken by slug, ascending. -/
def blogOrder (a b : Post) : Prop :=
  b.metadata.publishedAt < a.metadata.publishedAt ∨
    (a.metadata.publishedAt = b.metadata.publishedAt ∧ a.slug ≤ b.slug)

instance : DecidableRel blogOrder := fun a b => by
  unfold blogOrder
  infer_instance

instance : IsTotal Post blogOrder := by
  constructor
  intro a b
  rcases lt_trichotomy a.metadata.publishedAt b.metadata.publishedAt with h | h | h
  · exact Or.inr (Or.inl h)
  · rcases le_total a.slug b.slug with hs | hs
    · exact Or.inl (Or.inr ⟨h, hs⟩)
    · exact Or.inr (Or.inr ⟨h.symm, hs⟩)
  · exact Or.inl (Or.inl h)

instance : IsTrans Post blogOrder := by
  constructor
  intro a b c hab hbc
  rcases hab with hab | ⟨hab, sab⟩
  · rcases hbc with hbc | ⟨hbc, _⟩
    · exact Or.inl (lt_trans hbc hab)
    · exact Or.inl (hbc ▸ hab)
  · rcases hbc with hbc | ⟨hbc, sbc⟩
    · exact Or.inl (hab ▸ hbc)
    · exact Or.inr ⟨hab.trans hbc, le_trans sab sbc⟩

/-- Modelled from the spec: the Content Lister (`getBlogPosts` is imported
by the post page and the sitemap but its module is not in the checkout).
"Given the fixed document collection, produce a ... sequence of Post
records, one per document, with front-matter parsed into the declared
attributes"; malformed documents are excluded (the uniform policy chosen
here); "Ordering: descending by publication date; ties broken by slug". -/
def getBlogPosts (docs : List ContentDoc) : List Post :=
  List.insertionSort blogOrder (docs.filterMap parseDoc)

/-! ## formatDate (src post page) -/

/-- One calendar date as the JS `Date` accessors expose it: `getFullYear`,
`getMonth` (0-based) and `getDate`. -/
structure SimpleDate : Type where
  year : Int
  month : Int
  day : Int
deriving DecidableEq

/-- The string fixup at the head of `formatDate`: a date string without a
`T` gets `T00:00:00` appended so it parses as local midnight. -/
def withTimeSuffix (date : String) : String :=
  if 'T' ∈ date.toList then date else date ++ "T00:00:00"

/-- Decimal digit characters read as a number. -/
def digitsToNat (cs : List Char) : Nat :=
  cs.foldl (fun n c => n * 10 + (c.toNat - 48)) 0

/-- Parsing of `YYYY-MM-DD...` into the `Date` accessor values (month is
0-based, as `getMonth` returns it). -/
def parseLocalDate (s : String) : SimpleDate :=
  { year := (digitsToNat (s.toList.take 4) : Int)
    month := (digitsToNat ((s.toList.drop 5).take 2) : Int) - 1
    day := (digitsToNat ((s.toList.drop 8).take 2) : Int) }

/-- English month names as `toLocaleString` with `month: 'long'` produces
them, indexed by the 0-based month. -/
def monthLongName (m : Int) : String :=
  if m = 0 then "January"
  else if m = 1 then "February"
  else if m = 2 then "March"
  else if m = 3 then "April"
  else if m = 4 then "May"
  else if m = 5 then "June"
  else if m = 6 then "July"
  else if m = 7 then "August"
  else if m = 8 then "September"
  else if m = 9 then "October"
  else if m = 10 then "November"
  else if m = 11 then "December"
  else "Invalid"

/-- `targetDate.toLocaleString('en-us', \x7bmonth: 'long', day: 'numeric',
year: 'numeric'\x7d)`: for example `December 20, 2023`. -/
def fullDateString (t : SimpleDate) : String :=
  monthLongName t.month ++ " " ++ toString t.day ++ ", " ++ toString t.year

/-- The relative-age suffix cascade of `formatDate`: `yearsAgo`, `monthsAgo`
and `daysAgo` are the component-wise accessor differences, and the first of
the `if`/`else if` chain with a positive difference wins, else `Today`. -/
def relSuffix (currentDate targetDate : SimpleDate) : String :=
  let yearsAgo := currentDate.year - targetDate.year
  let monthsAgo := currentDate.month - targetDate.month
  let daysAgo := currentDate.day - targetDate.day
  if yearsAgo > 0 then toString yearsAgo ++ "y ago"
  else if monthsAgo > 0 then toString monthsAgo ++ "mo ago"
  else if daysAgo > 0 then toString daysAgo ++ "d ago"
  else "Today"

/-- `formatDate` from the post page, with the ambient current date made an
explicit argument: fix up the date string, parse it, and render the full
date followed by the parenthesised relative age. -/
def formatDate (currentDate : SimpleDate) (date : String) : String :=
  let targetDate := parseLocalDate (withTimeSuffix date)
  fullDateString targetDate ++ " (" ++ relSuffix currentDate targetDate ++ ")"

/-! ## Blog post page (src post page) -/

/-- A View Counter operation a page render could fire (an increment with
`trackView`, or a read for display). -/
inductive CounterEffect : Type where
  | incrementView (slug : String)
  | readView (slug : String)
deriving DecidableEq

/-- The response of the post page: the not-found page, or the rendered page
(headline and date line; the view-counter and MDX-body markup of the source
are commented out, so they contribute nothing to the render). -/
inductive RenderResult : Type where
  | notFoundPage
  | page (headline : String) (dateLine : String)
deriving DecidableEq

/-- The `Blog` component of the post page: find the post whose slug matches
the route parameter; if none, respond with the not-found page; otherwise
render the page.  The second component collects the View Counter operations
the render fires — in the source both the `ViewCounter`/`Views` elements
are commented out, so none are fired. -/
def Blog (docs : List ContentDoc) (slugParam : String)
    (currentDate : SimpleDate) : RenderResult × List CounterEffect :=
  match (getBlogPosts docs).find? (fun post => post.slug == slugParam) with
  | none => (.notFoundPage, [])
  | some post =>
      (.page post.metadata.title (formatDate currentDate post.metadata.publishedAt), [])

/-! ## sitemap (src sitemap) -/

/-- One sitemap entry, a `url`/`lastModified` pair. -/
structure SitemapEntry : Type where
  url : String
  lastModified : String
deriving DecidableEq

/-- The `sitemap` function: an entry per fixed top-level route (with today's
date as `lastModified`) followed by an entry per blog post from
`getBlogPosts`, with the post's publication date as `lastModified`. -/
def sitemap (docs : List ContentDoc) (today : String) : List SitemapEntry :=
  let blogs := (getBlogPosts docs).map fun post =>
    { url := "https://leerob.io/blog/" ++ post.slug
      lastModified := post.metadata.publishedAt : SitemapEntry }
  let routes := ["", "/about", "/blog", "/uses"].map fun route =>
    { url := "https://leerob.io" ++ route, lastModified := today : SitemapEntry }
  routes ++ blogs

/-! ## Theorems about the View Counter -/

/-- `increment` always leaves a row for the incremented slug. -/
theorem hasRow_increment_self (s : Store) (slug : String) :
    hasRow (increment s slug) slug = true := by
  induction s with
  | nil => simp [increment, hasRow]
  | cons p rest ih =>
      obtain ⟨k, v⟩ := p
      by_cases hk : k = slug
      · simp [increment, hasRow, hk]
      · simp [increment, hasRow, hk, ih]

/-- C1: concurrent execution of `increment(slug)` M times from M independent
callers yields `read(slug) == M` with no lost updates.  Each increment is a
single atomic upsert step of the store, so a concurrent execution is an
arbitrary interleaving: any schedule of atomic operations containing exactly
M increments of the slug, run from a store with no row for it, ends with the
slug's count equal to M. -/
theorem concurrent_increments_count (ops : List CounterOp) (slug : String)
    (s : Store) (M : Nat) (hM : ops.count (.inc slug) = M)
    (h0 : hasRow s slug = false) :
    readCount (run s ops) slug = M := by
  rw [readCount_run, readCount_of_not_hasRow s slug h0, hM]
  omega

/-- Witness for C1: two callers increment `post` with a concurrent read
interleaved between their atomic upserts; the final count is 2. -/
theorem concurrent_increments_count_witness :
    readCount (run Store.empty [.inc "post", .rd "post", .inc "post"]) "post" = 2 :=
  concurrent_increments_count [.inc "post", .rd "post", .inc "post"] "post"
    Store.empty 2 (by decide) (by decide)

/-- C4: from a store with no row for a (non-empty) slug, calling
`increment(slug)` N times sequentially and then reading yields N; moreover a
single `increment` creates the row if absent and increases the count by
exactly 1. -/
theorem sequential_increments_read (s : Store) (slug : String) (N : Nat)
    (_hslug : slug ≠ "") (h0 : hasRow s slug = false) :
    readCount (run s (List.replicate N (.inc slug))) slug = N ∧
      hasRow (increment s slug) slug = true ∧
      readCount (increment s slug) slug = readCount s slug + 1 := by
  refine ⟨?_, hasRow_increment_self s slug, ?_⟩
  · rw [readCount_run, readCount_of_not_hasRow s slug h0,
      List.count_replicate_self]
    omega
  · rw [readCount_increment]
    simp

/-- Witness for C4: three sequential increments of a fresh slug read back
as 3. -/
theorem sequential_increments_read_witness :
    readCount (run Store.empty (List.replicate 3 (.inc "b"))) "b" = 3 ∧
      hasRow (increment Store.empty "b") "b" = true ∧
      readCount (increment Store.empty "b") "b" = readCount Store.empty "b" + 1 :=
  sequential_increments_read Store.empty "b" 3 (by decide) (by decide)

/-- C5: `read` of a slug with no row returns 0 — absence is not an error
(`readCount` is a total function) — and a read operation leaves the store
unchanged (no side effect). -/
theorem read_absent_zero (s : Store) (slug : String)
    (h : hasRow s slug = false) :
    readCount s slug = 0 ∧ applyOp s (.rd slug) = s :=
  ⟨readCount_of_not_hasRow s slug h, rfl⟩

/-- Witness for C5: a store holding only a row for `other` reads 0 for a
never-seen slug, and the read leaves the store unchanged. -/
theorem read_absent_zero_witness :
    readCount (increment Store.empty "other") "new" = 0 ∧
      applyOp (increment Store.empty "other") (.rd "new") =
        increment Store.empty "other" :=
  read_absent_zero (increment Store.empty "other") "new" (by decide)

/-- C8: every operation of the application (an atomic upsert-increment or a
point-read — the only store operations the application performs) leaves
every slug's count no smaller than before and never deletes a row. -/
theorem count_monotonic (s : Store) (op : CounterOp) (slug : String) :
    readCount s slug ≤ readCount (applyOp s op) slug ∧
      (hasRow s slug = true → hasRow (applyOp s op) slug = true) := by
  cases op with
  | inc x =>
      constructor
      · show readCount s slug ≤ readCount (increment s x) slug
        rw [readCount_increment]
        by_cases h : x = slug <;> simp [h]
      · exact fun h => hasRow_increment s x slug h
  | rd x => exact ⟨le_refl _, fun h => h⟩

/-- Witness for C8: incrementing `a` does not decrease the count stored for
`a` and keeps its row. -/
theorem count_monotonic_witness :
    readCount (increment Store.empty "a") "a" ≤
        readCount (applyOp (increment Store.empty "a") (.inc "a")) "a" ∧
      hasRow (applyOp (increment Store.empty "a") (.inc "a")) "a" = true :=
  ⟨(count_monotonic (increment Store.empty "a") (.inc "a") "a").1,
    (count_monotonic (increment Store.empty "a") (.inc "a") "a").2 (by decide)⟩

/-! ## Theorems about the Content Lister -/

/-- C3: for every content document collection, the Content Lister's output
is ordered descending by publication date with ties broken by slug
(`blogOrder` pairwise along the list); the lister is a pure function of the
collection, so the output is reproducible across runs. -/
theorem listing_sorted (docs : List ContentDoc) :
    List.Sorted blogOrder (getBlogPosts docs) :=
  List.sorted_insertionSort blogOrder (docs.filterMap parseDoc)

/-- C7: a document missing a required front-matter field (`title`,
`publishedAt` or `summary`) parses to no Post record at all — never a
partial or garbage record — and is uniformly excluded from the listing. -/
theorem malformed_doc_excluded (d : ContentDoc)
    (h : d.frontMatter.lookup "title" = none ∨
         d.frontMatter.lookup "publishedAt" = none ∨
         d.frontMatter.lookup "summary" = none) :
    parseDoc d = none ∧ ∀ docs, getBlogPosts (d :: docs) = getBlogPosts docs := by
  have hp : parseDoc d = none := by
    rcases ht : d.frontMatter.lookup "title" with _ | t <;>
      rcases hpub : d.frontMatter.lookup "publishedAt" with _ | p <;>
        rcases hs : d.frontMatter.lookup "summary" with _ | s <;>
          rw [ht, hpub, hs] at h <;>
            simp only [parseDoc, ht, hpub, hs] <;>
              rcases h with h | h | h <;> simp_all
  exact ⟨hp, fun docs => by
    unfold getBlogPosts
    rw [List.filterMap_cons_none hp]⟩

/-- Witness for C7: a document carrying only a title is excluded: it parses
to no record and the listing of it alone is empty. -/
theorem malformed_doc_excluded_witness :
    parseDoc ⟨"bad", [("title", "X")], "body"⟩ = none ∧
      getBlogPosts [⟨"bad", [("title", "X")], "body"⟩] = getBlogPosts [] :=
  ⟨(malformed_doc_excluded ⟨"bad", [("title", "X")], "body"⟩
      (Or.inr (Or.inl (by decide)))).1,
    (malformed_doc_excluded ⟨"bad", [("title", "X")], "body"⟩
      (Or.inr (Or.inl (by decide)))).2 []⟩

/-! ## Theorems about the post page -/

/-- C6: a request for a slug with no matching Post record yields the
not-found page — a total response, not a partial render or a crash — and
fires no View Counter operation. -/
theorem missing_slug_not_found (docs : List ContentDoc) (slugParam : String)
    (currentDate : SimpleDate)
    (h : ∀ post ∈ getBlogPosts docs, post.slug ≠ slugParam) :
    Blog docs slugParam currentDate = (.notFoundPage, []) := by
  have hf : (getBlogPosts docs).find? (fun post => post.slug == slugParam) = none := by
    rw [List.find?_eq_none]
    intro p hp
    simp [h p hp]
  simp [Blog, hf]

/-- Witness for C6: requesting slug `missing` against a collection holding
only the checkpoint article responds with the not-found page. -/
theorem missing_slug_not_found_witness :
    Blog [⟨"tidb-checkpoint",
        [("title", "TiDB Lightning Checkpoint Mechanism Source Code Explained"),
         ("publishedAt", "2023-09-09"),
         ("summary", "TiDB Lightning Checkpoint Mechanism Source Code Explained")],
        "body"⟩] "missing" ⟨2024, 0, 5⟩ = (.notFoundPage, []) :=
  missing_slug_not_found _ "missing" ⟨2024, 0, 5⟩ (by decide)

/-- C2 counterexample: rendering the post page for the repository's own
checkpoint article succeeds (it is not the not-found page) yet fires no
View Counter increment and no read — the view-counter markup in the source
is commented out — so a successful single-post render triggers neither
operation. -/
theorem post_render_no_view_counter_ops :
    (Blog [⟨"tidb-checkpoint",
        [("title", "TiDB Lightning Checkpoint Mechanism Source Code Explained"),
         ("publishedAt", "2023-09-09"),
         ("summary", "TiDB Lightning Checkpoint Mechanism Source Code Explained")],
        "body"⟩] "tidb-checkpoint" ⟨2024, 0, 5⟩).1 ≠ .notFoundPage ∧
      (Blog [⟨"tidb-checkpoint",
        [("title", "TiDB Lightning Checkpoint Mechanism Source Code Explained"),
         ("publishedAt", "2023-09-09"),
         ("summary", "TiDB Lightning Checkpoint Mechanism Source Code Explained")],
        "body"⟩] "tidb-checkpoint" ⟨2024, 0, 5⟩).2 = [] := by
  constructor
  · decide
  · decide

/-- C2 as amended: rendering the post page fires no View Counter operation
at all, for any collection, slug and current date. -/
theorem post_render_counter_effects_empty (docs : List ContentDoc)
    (slugParam : String) (currentDate : SimpleDate) :
    (Blog docs slugParam currentDate).2 = [] := by
  unfold Blog
  rcases hf : (getBlogPosts docs).find? (fun post => post.slug == slugParam) with
    _ | post <;> simp [hf]

/-! ## Theorems about sitemap and formatDate -/

/-- C9: the sitemap is one `url`/`lastModified` entry per fixed top-level
route, in order, followed by one entry per post in listing order, the post
entry's url being the blog base url followed by the slug and its
`lastModified` the post's publication date. -/
theorem sitemap_routes_then_posts (docs : List ContentDoc) (today : String) :
    sitemap docs today =
      [⟨"https://leerob.io", today⟩, ⟨"https://leerob.io/about", today⟩,
       ⟨"https://leerob.io/blog", today⟩, ⟨"https://leerob.io/uses", today⟩] ++
        (getBlogPosts docs).map (fun post =>
          ⟨"https://leerob.io/blog/" ++ post.slug, post.metadata.publishedAt⟩) :=
  rfl

/-- C10: a `publishedAt` string without a `T` is parsed with `T00:00:00`
appended (local midnight), and the relative-age suffix is the first positive
among the component differences of calendar year, month and day, else
`Today`; in particular a date in the previous calendar year gets a year
suffix even when fewer than twelve months have elapsed (December 20, 2023
seen from January 5, 2024 is `1y ago`). -/
theorem formatDate_cascade (currentDate : SimpleDate) (date : String)
    (t : SimpleDate) (hT : 'T' ∉ date.toList)
    (_ht : t = parseLocalDate (date ++ "T00:00:00")) :
    formatDate currentDate date = formatDate currentDate (date ++ "T00:00:00") ∧
      (0 < currentDate.year - t.year →
        relSuffix currentDate t = toString (currentDate.year - t.year) ++ "y ago") ∧
      (currentDate.year - t.year ≤ 0 → 0 < currentDate.month - t.month →
        relSuffix currentDate t = toString (currentDate.month - t.month) ++ "mo ago") ∧
      (currentDate.year - t.year ≤ 0 → currentDate.month - t.month ≤ 0 →
        0 < currentDate.day - t.day →
        relSuffix currentDate t = toString (currentDate.day - t.day) ++ "d ago") ∧
      (currentDate.year - t.year ≤ 0 → currentDate.month - t.month ≤ 0 →
        currentDate.day - t.day ≤ 0 → relSuffix currentDate t = "Today") ∧
      formatDate ⟨2024, 0, 5⟩ "2023-12-20" = "December 20, 2023 (1y ago)" := by
  refine ⟨?_, ?_, ?_, ?_, ?_, by decide⟩
  · have hT2 : 'T' ∉ date.data := hT
    have hmem : 'T' ∈ (date ++ "T00:00:00").data := by
      rw [String.data_append]
      exact List.mem_append_right _ (by decide)
    simp [formatDate, withTimeSuffix, String.toList, hT2, hmem]
  · intro h1
    simp [relSuffix, h1]
  · intro h1 h2
    have hy : ¬ (0 < currentDate.year - t.year) := by omega
    simp [relSuffix, hy, h2]
  · intro h1 h2 h3
    have hy : ¬ (0 < currentDate.year - t.year) := by omega
    have hm : ¬ (0 < currentDate.month - t.month) := by omega
    simp [relSuffix, hy, hm, h3]
  · intro h1 h2 h3
    have hy : ¬ (0 < currentDate.year - t.year) := by omega
    have hm : ¬ (0 < currentDate.month - t.month) := by omega
    have hd : ¬ (0 < currentDate.day - t.day) := by omega
    simp [relSuffix, hy, hm, hd]

/-- Witness for C10: `2023-12-20` (no `T`) formats the same as with the
appended time, and seen from January 5, 2024 its suffix is `1y ago`. -/
theorem formatDate_cascade_witness :
    formatDate ⟨2024, 0, 5⟩ "2023-12-20" =
        formatDate ⟨2024, 0, 5⟩ ("2023-12-20" ++ "T00:00:00") ∧
      relSuffix ⟨2024, 0, 5⟩ ⟨2023, 11, 20⟩ = "1y ago" :=
  ⟨(formatDate_cascade ⟨2024, 0, 5⟩ "2023-12-20" ⟨2023, 11, 20⟩ (by decide)
      (by decide)).1,
    ((formatDate_cascade ⟨2024, 0, 5⟩ "2023-12-20" ⟨2023, 11, 20⟩ (by decide)
        (by decide)).2.1 (by decide)).trans (by decide)⟩
